import Mathlib

/-!
# Verification of `prepare_data.py` (housing_preference_locator)

Shallow embedding of the data-preparation pipeline of
`src/prepare_data.py`, together with theorems settling the specification
claims about it.  Machine floats holding whole census codes and vote
counts are modelled exactly (`Nat`/`ℚ`); the float `NaN` produced by
pandas for missing cells and `0/0` is modelled explicitly (`PFloat.nan`,
or an absent cell in the data-frame model).
-/

namespace HousingPrep

/-! ## Decimal strings, `str.zfill`, and the county FIPS key

`prepare_data` builds the county key as
`StateCodeFIPS.astype(str).str.zfill(2) + MunicipalCodeFIPS.astype(str).str.zfill(3)`
and then casts the 5-character string to a number (`.astype(float)`).
Digit lists are most-significant-first, as in the Python strings. -/

/-- Value of a decimal digit character. -/
def digitVal (c : Char) : Nat := c.toNat - 48

/-- The decimal digit character for `n < 10`, as Python `str` produces. -/
def digitChar (n : Nat) : Char := Char.ofNat (48 + n)

/-- Fuel-driven helper for `natDigits` (structural, so that proofs can
evaluate it); `fuel > n` suffices. -/
def natDigitsAux : Nat → Nat → List Char
  | 0, _ => []
  | f + 1, n =>
    if n < 10 then [digitChar n]
    else natDigitsAux f (n / 10) ++ [digitChar (n % 10)]

/-- Decimal digits of `n`, most significant first: the model of Python
`str(n)` for a nonnegative integer `n`. -/
def natDigits (n : Nat) : List Char := natDigitsAux (n + 1) n

theorem natDigitsAux_fuel (f f' n : Nat) (h : n < f) (h' : n < f') :
    natDigitsAux f n = natDigitsAux f' n := by
  induction f generalizing f' n with
  | zero => omega
  | succ g ih =>
    obtain ⟨g', rfl⟩ : ∃ g', f' = g' + 1 := ⟨f' - 1, by omega⟩
    show natDigitsAux (g + 1) n = natDigitsAux (g' + 1) n
    simp only [natDigitsAux]
    by_cases hn : n < 10
    · simp [hn]
    · have hd : n / 10 < n := Nat.div_lt_self (by omega) (by omega)
      simp only [hn, if_false]
      rw [ih g' (n / 10) (by omega) (by omega)]

/-- Python `s.zfill(w)`: left-pad with `'0'` to width `w`. -/
def zfill (w : Nat) (s : List Char) : List Char :=
  List.replicate (w - s.length) '0' ++ s

/-- Numeric value of a decimal digit string (what `.astype(float)` yields
on a string of digits, the fractional part being zero). -/
def natVal (s : List Char) : Nat :=
  s.foldl (fun a c => a * 10 + digitVal c) 0

/-- A FIPS code as it may be supplied in the CSV column: either a number
(read as an integer) or a fixed-width digit string. -/
inductive SuppliedCode where
  | asNat (n : Nat)
  | asStr (s : List Char)
deriving DecidableEq

/-- Python `.astype(str)` on a supplied code. -/
def SuppliedCode.pyStr : SuppliedCode → List Char
  | .asNat n => natDigits n
  | .asStr s => s

/-- `sc` is a faithful supplied form of numeric code `n` at width `w`:
either the number itself, or the `w`-wide zero-padded decimal string. -/
def SuppliedCode.Represents (sc : SuppliedCode) (n w : Nat) : Prop :=
  sc = .asNat n ∨ sc = .asStr (zfill w (natDigits n))

/-- Lines 38–41 of `prepare_data.py`: the derived `county_fips` key string,
before the final numeric cast. -/
def countyKey (st cty : SuppliedCode) : List Char :=
  zfill 2 st.pyStr ++ zfill 3 cty.pyStr

/-! ### Digit-string lemmas -/

theorem natDigits_lt_ten (n : Nat) (h : n < 10) : natDigits n = [digitChar n] := by
  unfold natDigits
  simp only [natDigitsAux, h, if_true]

theorem natDigits_ge_ten (n : Nat) (h : ¬ n < 10) :
    natDigits n = natDigits (n / 10) ++ [digitChar (n % 10)] := by
  have hd : n / 10 < n := Nat.div_lt_self (by omega) (by omega)
  unfold natDigits
  simp only [natDigitsAux, h, if_false]
  rw [natDigitsAux_fuel n (n / 10 + 1) (n / 10) (by omega) (by omega)]
  rfl

theorem digitVal_digitChar (n : Nat) (h : n < 10) : digitVal (digitChar n) = n := by
  interval_cases n <;> decide

theorem natVal_foldl (acc : Nat) (s : List Char) :
    s.foldl (fun a c => a * 10 + digitVal c) acc =
      acc * 10 ^ s.length + natVal s := by
  induction s generalizing acc with
  | nil => simp [natVal]
  | cons c t ih =>
    simp only [List.foldl_cons, List.length_cons, natVal]
    rw [ih (acc * 10 + digitVal c), ih (0 * 10 + digitVal c)]
    ring

theorem natVal_append (a b : List Char) :
    natVal (a ++ b) = natVal a * 10 ^ b.length + natVal b := by
  unfold natVal
  rw [List.foldl_append, natVal_foldl]
  rfl

theorem natVal_replicate_zero (k : Nat) : natVal (List.replicate k '0') = 0 := by
  induction k with
  | zero => rfl
  | succ m ih =>
    have : List.replicate (m + 1) '0' = List.replicate m '0' ++ ['0'] := by
      rw [List.replicate_succ']
    rw [this, natVal_append, ih]
    decide

theorem natVal_zfill (w : Nat) (s : List Char) : natVal (zfill w s) = natVal s := by
  unfold zfill
  rw [natVal_append, natVal_replicate_zero]
  ring

theorem natVal_natDigits (n : Nat) : natVal (natDigits n) = n := by
  induction n using Nat.strong_induction_on with
  | _ n ih =>
    by_cases h : n < 10
    · rw [natDigits_lt_ten n h]
      simpa [natVal] using digitVal_digitChar n h
    · rw [natDigits_ge_ten n h, natVal_append,
        ih (n / 10) (Nat.div_lt_self (by omega) (by omega))]
      simp only [List.length_cons, List.length_nil, pow_one]
      have h10 : n % 10 < 10 := Nat.mod_lt _ (by omega)
      rw [show natVal [digitChar (n % 10)] = digitVal (digitChar (n % 10)) by
            simp [natVal],
        digitVal_digitChar _ h10]
      omega

theorem natDigits_length_le (n k : Nat) (hk : 0 < k) (h : n < 10 ^ k) :
    (natDigits n).length ≤ k := by
  induction n using Nat.strong_induction_on generalizing k with
  | _ n ih =>
    by_cases hn : n < 10
    · rw [natDigits_lt_ten n hn]
      simpa using hk
    · rw [natDigits_ge_ten n hn]
      have hk2 : 2 ≤ k := by
        by_contra hcon
        interval_cases k <;> omega
      have hpow : 10 ^ k = 10 ^ (k - 1) * 10 := by
        rw [← pow_succ]
        congr 1
        omega
      have hlt : n / 10 < 10 ^ (k - 1) :=
        Nat.div_lt_of_lt_mul (by omega)
      have hdiv : (natDigits (n / 10)).length ≤ k - 1 :=
        ih (n / 10) (Nat.div_lt_self (by omega) (by omega)) (k - 1) (by omega) hlt
      simp only [List.length_append, List.length_cons, List.length_nil]
      omega

theorem zfill_length (w : Nat) (s : List Char) (h : s.length ≤ w) :
    (zfill w s).length = w := by
  unfold zfill
  simp only [List.length_append, List.length_replicate]
  omega

theorem zfill_of_length_eq (w : Nat) (t : List Char) (h : t.length = w) :
    zfill w t = t := by
  unfold zfill
  rw [h]
  simp

theorem zfill_natDigits_eq (w n : Nat) (h : (natDigits n).length ≤ w) :
    zfill w (zfill w (natDigits n)) = zfill w (natDigits n) :=
  zfill_of_length_eq w _ (zfill_length w (natDigits n) h)

theorem countyKey_eq (st cty : SuppliedCode) (s c : Nat)
    (hs : st.Represents s 2) (hc : cty.Represents c 3)
    (hslt : s < 100) (hclt : c < 1000) :
    countyKey st cty = zfill 2 (natDigits s) ++ zfill 3 (natDigits c) := by
  have hsl : (natDigits s).length ≤ 2 := natDigits_length_le s 2 (by omega) hslt
  have hcl : (natDigits c).length ≤ 3 := natDigits_length_le c 3 (by omega) hclt
  unfold countyKey
  rcases hs with hs | hs <;> rcases hc with hc | hc <;>
    subst hs <;> subst hc <;>
    simp [SuppliedCode.pyStr, zfill_natDigits_eq 2 s hsl, zfill_natDigits_eq 3 c hcl]

theorem natVal_countyKey (st cty : SuppliedCode) (s c : Nat)
    (hs : st.Represents s 2) (hc : cty.Represents c 3)
    (hslt : s < 100) (hclt : c < 1000) :
    natVal (countyKey st cty) = s * 1000 + c := by
  have hsl : (natDigits s).length ≤ 2 := natDigits_length_le s 2 (by omega) hslt
  have hcl : (natDigits c).length ≤ 3 := natDigits_length_le c 3 (by omega) hclt
  rw [countyKey_eq st cty s c hs hc hslt hclt, natVal_append,
    natVal_zfill, natVal_zfill, natVal_natDigits, natVal_natDigits,
    zfill_length 3 (natDigits c) hcl]
  norm_num

/-- C1: for every input housing row the derived county key is the 5-digit
zero-padded concatenation of the state code (padded to 2 digits) and the
county code (padded to 3 digits), whether each code is supplied as a
fixed-width string or as a number; its numeric value is
`state * 1000 + county`, so no two distinct (state, county) pairs collide. -/
theorem countyKey_padded_concat_and_injective
    (st cty st' cty' : SuppliedCode) (s c s' c' : Nat)
    (hs : st.Represents s 2) (hc : cty.Represents c 3)
    (hs' : st'.Represents s' 2) (hc' : cty'.Represents c' 3)
    (hslt : s < 100) (hclt : c < 1000) (hslt' : s' < 100) (hclt' : c' < 1000) :
    countyKey st cty = zfill 2 (natDigits s) ++ zfill 3 (natDigits c) ∧
    (countyKey st cty).length = 5 ∧
    natVal (countyKey st cty) = s * 1000 + c ∧
    (natVal (countyKey st cty) = natVal (countyKey st' cty') → s = s' ∧ c = c') := by
  have hsl : (natDigits s).length ≤ 2 := natDigits_length_le s 2 (by omega) hslt
  have hcl : (natDigits c).length ≤ 3 := natDigits_length_le c 3 (by omega) hclt
  refine ⟨countyKey_eq st cty s c hs hc hslt hclt, ?_,
    natVal_countyKey st cty s c hs hc hslt hclt, ?_⟩
  · rw [countyKey_eq st cty s c hs hc hslt hclt]
    simp only [List.length_append, zfill_length 2 (natDigits s) hsl,
      zfill_length 3 (natDigits c) hcl]
  · intro heq
    rw [natVal_countyKey st cty s c hs hc hslt hclt,
      natVal_countyKey st' cty' s' c' hs' hc' hslt' hclt'] at heq
    omega

/-- Witness for C1 at the claim's own example: state 1 county 1 versus
state 10 county 1, the state supplied once as a number and once as the
fixed-width string, do not collide. -/
theorem countyKey_padded_concat_and_injective_witness :
    countyKey (.asNat 1) (.asStr ['0', '0', '1']) =
      zfill 2 (natDigits 1) ++ zfill 3 (natDigits 1) ∧
    (countyKey (.asNat 1) (.asStr ['0', '0', '1'])).length = 5 ∧
    natVal (countyKey (.asNat 1) (.asStr ['0', '0', '1'])) = 1 * 1000 + 1 ∧
    (natVal (countyKey (.asNat 1) (.asStr ['0', '0', '1'])) =
        natVal (countyKey (.asNat 10) (.asNat 1)) → 1 = 10 ∧ 1 = 1) :=
  countyKey_padded_concat_and_injective
    (.asNat 1) (.asStr ['0', '0', '1']) (.asNat 10) (.asNat 1) 1 1 10 1
    (Or.inl rfl)
    (Or.inr (by rw [natDigits_lt_ten 1 (by omega)]; decide))
    (Or.inl rfl) (Or.inl rfl)
    (by decide) (by decide) (by decide) (by decide)

/-! ## Current-value column selection (line 43–44)

`date_cols = [col for col in housing_general.columns if col.startswith('20')]`
followed by `housing_general[date_cols[-1]]`.  `date_cols[-1]` on an empty
list raises, so the selection is `Option`-valued. -/

/-- Python `c.startswith(pre)`. -/
def pyStartsWith (c pre : String) : Bool :=
  pre.data.isPrefixOf c.data

/-- Lines 43–44 of `prepare_data.py`: the column used as the current value,
namely the last column (in native order) whose name starts with `"20"`. -/
def dateColSelect (cols : List String) : Option String :=
  (cols.filter (fun c => pyStartsWith c "20")).getLast?

/-- Modelled from the spec's words: a column name "begins with a 4-digit
year prefix" when its first four characters exist and are digits. -/
def beginsWithYear (c : String) : Bool :=
  decide (4 ≤ c.data.length) && (c.data.take 4).all Char.isDigit

/-- Modelled from the spec's words: select the last column, in native
order, whose name begins with a 4-digit year prefix. -/
def specYearColSelect (cols : List String) : Option String :=
  (cols.filter beginsWithYear).getLast?

theorem getLast?_filter_eq_find?_reverse {α : Type} (p : α → Bool) (l : List α) :
    (l.filter p).getLast? = l.reverse.find? p := by
  induction l using List.reverseRecOn with
  | nil => rfl
  | append_singleton t a ih =>
    rw [List.filter_append, List.reverse_append]
    by_cases h : p a
    · simp [List.filter_cons, h, List.find?_cons]
    · simp [List.filter_cons, h, List.find?_cons, ih]

/-- Counterexample to C2: with columns `["RegionName", "2019-12-31",
"20th_percentile"]` the code selects `"20th_percentile"`, which does not
begin with a 4-digit year, while the last 4-digit-year-prefixed column is
`"2019-12-31"`. -/
theorem dateColSelect_not_year_prefix_counterexample :
    dateColSelect ["RegionName", "2019-12-31", "20th_percentile"] =
      some "20th_percentile" ∧
    specYearColSelect ["RegionName", "2019-12-31", "20th_percentile"] =
      some "2019-12-31" ∧
    dateColSelect ["RegionName", "2019-12-31", "20th_percentile"] ≠
      specYearColSelect ["RegionName", "2019-12-31", "20th_percentile"] := by
  refine ⟨by decide, by decide, by decide⟩

/-- C2 (amended): the pipeline selects, as the current value, the last —
in the table's native column order — column whose name starts with the
literal prefix `"20"`: the selected column is a column of the table, its
name starts with `"20"`, and no later column's name does (it is the first
such name in the reversed column list). -/
theorem dateColSelect_last_20_prefixed (cols : List String) (c : String)
    (h : dateColSelect cols = some c) :
    c ∈ cols ∧ pyStartsWith c "20" = true ∧
    cols.reverse.find? (fun x => pyStartsWith x "20") = some c := by
  have hrev : cols.reverse.find? (fun x => pyStartsWith x "20") = some c := by
    rw [← getLast?_filter_eq_find?_reverse]
    exact h
  have hx : c ∈ (cols.filter (fun x => pyStartsWith x "20")).getLast? := by
    unfold dateColSelect at h
    exact Option.mem_def.mpr h
  obtain ⟨hne, hceq⟩ := List.mem_getLast?_eq_getLast hx
  have hmem : c ∈ cols.filter (fun x => pyStartsWith x "20") := by
    rw [hceq]
    exact List.getLast_mem hne
  refine ⟨?_, ?_, hrev⟩
  · exact (List.mem_filter.mp hmem).1
  · exact (List.mem_filter.mp hmem).2

/-- Witness for the amended C2 on a concrete column list. -/
theorem dateColSelect_last_20_prefixed_witness :
    "2024-01-31" ∈ ["RegionName", "2000-01-31", "2024-01-31"] ∧
    pyStartsWith "2024-01-31" "20" = true ∧
    (["RegionName", "2000-01-31", "2024-01-31"]).reverse.find?
        (fun x => pyStartsWith x "20") = some "2024-01-31" :=
  dateColSelect_last_20_prefixed
    ["RegionName", "2000-01-31", "2024-01-31"] "2024-01-31" (by decide)

/-! ## Pandas float scalars

Cells of the numeric election columns are 64-bit floats; the values that
actually arise are exact decimals, modelled by `ℚ`, plus the special
values `NaN` and `±inf` that pandas produces on division by zero. -/

/-- A pandas float scalar. -/
inductive PFloat where
  | nan
  | inf
  | ninf
  | val (q : ℚ)
deriving DecidableEq

/-- `pd.isna` on a float scalar. -/
def pdIsna : PFloat → Bool
  | .nan => true
  | _ => false

/-- Pandas float division: `0/0 = NaN`, `±x/0 = ±inf`, exact otherwise. -/
def pdDiv (a b : ℚ) : PFloat :=
  if b = 0 then
    if a = 0 then .nan else if 0 < a then .inf else .ninf
  else .val (a / b)

/-- Multiplication by the positive constant `100`. -/
def pmul100 : PFloat → PFloat
  | .nan => .nan
  | .inf => .inf
  | .ninf => .ninf
  | .val q => .val (q * 100)

/-- Round to the nearest integer, ties to even (IEEE / pandas rounding). -/
def roundHalfEven (x : ℚ) : ℤ :=
  let f := ⌊x⌋
  let r2 := 2 * (x.num - f * (x.den : ℤ))
  if r2 < (x.den : ℤ) then f
  else if (x.den : ℤ) < r2 then f + 1
  else if f % 2 = 0 then f else f + 1

/-- Sanity check: `roundHalfEven` is the usual fractional-part description
of round-half-to-even (the integer form above is used so that proofs can
evaluate it). -/
theorem roundHalfEven_spec (x : ℚ) :
    roundHalfEven x =
      if x - ⌊x⌋ < 1/2 then ⌊x⌋
      else if 1/2 < x - ⌊x⌋ then ⌊x⌋ + 1
      else if Even ⌊x⌋ then ⌊x⌋ else ⌊x⌋ + 1 := by
  have hden : (0:ℚ) < (x.den : ℚ) := by
    exact_mod_cast x.pos
  have hx : (x.num : ℚ) / (x.den : ℚ) = x := Rat.num_div_den x
  have key : ∀ y : ℤ, (x - (y:ℚ) < 1/2) ↔ 2 * (x.num - y * (x.den : ℤ)) < (x.den : ℤ) := by
    intro y
    rw [sub_lt_iff_lt_add]
    conv_lhs => rw [← hx]
    rw [div_lt_iff hden]
    rw [show ((1:ℚ)/2 + y) * (x.den : ℚ) =
      ((2 * (y * x.den) + x.den : ℤ) : ℚ) / 2 by push_cast; ring]
    rw [lt_div_iff (by norm_num : (0:ℚ) < 2)]
    rw [show ((x.num : ℚ)) * 2 = ((2 * x.num : ℤ) : ℚ) by push_cast; ring]
    rw [Int.cast_lt]
    omega
  have key2 : ∀ y : ℤ, ((1:ℚ)/2 < x - (y:ℚ)) ↔ (x.den : ℤ) < 2 * (x.num - y * (x.den : ℤ)) := by
    intro y
    rw [lt_sub_iff_add_lt]
    conv_lhs => rw [← hx]
    rw [lt_div_iff hden]
    rw [show ((1:ℚ)/2 + y) * (x.den : ℚ) =
      ((2 * (y * x.den) + x.den : ℤ) : ℚ) / 2 by push_cast; ring]
    rw [div_lt_iff (by norm_num : (0:ℚ) < 2)]
    rw [show ((x.num : ℚ)) * 2 = ((2 * x.num : ℤ) : ℚ) by push_cast; ring]
    rw [Int.cast_lt]
    omega
  unfold roundHalfEven
  simp only [← key, ← key2, Int.even_iff]

/-- Pandas `.round(1)`: round to one decimal place, ties to even. -/
def round1 (x : ℚ) : ℚ := (roundHalfEven (x * 10) : ℚ) / 10

/-- Pandas `.round(1)` on a float scalar (`NaN` and `±inf` unchanged). -/
def pround1 : PFloat → PFloat
  | .val q => .val (round1 q)
  | x => x

/-- Pandas float subtraction. -/
def psub : PFloat → PFloat → PFloat
  | .nan, _ => .nan
  | _, .nan => .nan
  | .inf, .inf => .nan
  | .inf, .ninf => .inf
  | .inf, .val _ => .inf
  | .ninf, .inf => .ninf
  | .ninf, .ninf => .nan
  | .ninf, .val _ => .ninf
  | .val _, .inf => .ninf
  | .val _, .ninf => .inf
  | .val a, .val b => .val (a - b)

/-! ## Election aggregation (lines 79–101)

A row of `elec_pivot` holds, for one county, the summed `candidatevotes`
per party column.  `fill_value=0` and lines 90–95 make an absent party
count as zero votes. -/

/-- One county's pivoted election row: votes per party column present. -/
abbrev PartyVotes := List (String × Nat)

/-- Lines 90–95: a party's votes, defaulting to `0` when the party column
is absent (`elec_pivot['X'] = 0` / `elec_pivot.get('X', 0)`). -/
def getVotes (pv : PartyVotes) (p : String) : Nat :=
  ((pv.find? (fun q => q.1 == p)).map (fun q => q.2)).getD 0

/-- Line 95: `total_votes = DEMOCRAT + REPUBLICAN` (two-party total). -/
def totalVotes (pv : PartyVotes) : Nat :=
  getVotes pv "DEMOCRAT" + getVotes pv "REPUBLICAN"

/-- Line 96: `dem_pct = (DEMOCRAT / total_votes * 100).round(1)`. -/
def demPct (pv : PartyVotes) : PFloat :=
  pround1 (pmul100 (pdDiv (getVotes pv "DEMOCRAT" : ℚ) (totalVotes pv : ℚ)))

/-- Line 97: `rep_pct = (REPUBLICAN / total_votes * 100).round(1)`. -/
def repPct (pv : PartyVotes) : PFloat :=
  pround1 (pmul100 (pdDiv (getVotes pv "REPUBLICAN" : ℚ) (totalVotes pv : ℚ)))

/-- Line 98: `lean_score = (dem_pct - rep_pct).round(1)`. -/
def leanScore (pv : PartyVotes) : PFloat :=
  pround1 (psub (demPct pv) (repPct pv))

/-! ## Categorizers (lines 168–199) -/

/-- Lines 168–180 of `prepare_data.py`: `categorize_lean`. -/
def categorize_lean : PFloat → String
  | .nan => "Unknown"
  | .inf => "Strong Democrat"
  | .ninf => "Strong Republican"
  | .val s =>
    if 20 < s then "Strong Democrat"
    else if 5 < s then "Lean Democrat"
    else if -5 < s then "Swing"
    else if -20 < s then "Lean Republican"
    else "Strong Republican"

/-- Lines 185–197 of `prepare_data.py`: `categorize_gun_law`. -/
def categorize_gun_law : Option String → String
  | none => "Unknown"
  | some g =>
    if g ∈ (["A+", "A", "A-"] : List String) then "Strong"
    else if g ∈ (["B+", "B", "B-"] : List String) then "Moderate"
    else if g ∈ (["C+", "C", "C-"] : List String) then "Weak"
    else if g ∈ (["D+", "D", "D-"] : List String) then "Very Weak"
    else "Minimal"

/-- Counterexample to C3: a true missing grade is categorized as
`"Unknown"`, not `"Minimal"` — line 186 tests `pd.isna(grade)` first. -/
theorem categorize_gun_law_missing_counterexample :
    categorize_gun_law none = "Unknown" ∧ categorize_gun_law none ≠ "Minimal" :=
  ⟨rfl, by decide⟩

/-- C3 (amended): grades in {A+,A,A-} map to Strong, {B+,B,B-} to
Moderate, {C+,C,C-} to Weak, {D+,D,D-} to Very Weak, any other
non-missing grade to "Minimal", and a missing grade to "Unknown"
(never "Minimal"). -/
theorem categorize_gun_law_characterization (s : String) :
    categorize_gun_law none = "Unknown" ∧
    (categorize_gun_law (some s) = "Strong" ↔ s ∈ (["A+", "A", "A-"] : List String)) ∧
    (categorize_gun_law (some s) = "Moderate" ↔ s ∈ (["B+", "B", "B-"] : List String)) ∧
    (categorize_gun_law (some s) = "Weak" ↔ s ∈ (["C+", "C", "C-"] : List String)) ∧
    (categorize_gun_law (some s) = "Very Weak" ↔ s ∈ (["D+", "D", "D-"] : List String)) ∧
    (categorize_gun_law (some s) = "Minimal" ↔
      s ∉ (["A+", "A", "A-", "B+", "B", "B-", "C+", "C", "C-",
            "D+", "D", "D-"] : List String)) ∧
    categorize_gun_law (some s) ≠ "Unknown" := by
  refine ⟨rfl, ?_⟩
  show _ ∧ _ ∧ _ ∧ _ ∧ _ ∧ _
  simp only [categorize_gun_law]
  split_ifs with h1 h2 h3 h4
  · simp only [List.mem_cons, List.not_mem_nil, or_false] at h1
    rcases h1 with h | h | h <;> subst h <;> decide
  · simp only [List.mem_cons, List.not_mem_nil, or_false] at h2
    rcases h2 with h | h | h <;> subst h <;> decide
  · simp only [List.mem_cons, List.not_mem_nil, or_false] at h3
    rcases h3 with h | h | h <;> subst h <;> decide
  · simp only [List.mem_cons, List.not_mem_nil, or_false] at h4
    rcases h4 with h | h | h <;> subst h <;> decide
  · simp_all [List.mem_cons]

theorem categorize_lean_val (s : ℚ) :
    categorize_lean (.val s) =
      if 20 < s then "Strong Democrat"
      else if 5 < s then "Lean Democrat"
      else if -5 < s then "Swing"
      else if -20 < s then "Lean Republican"
      else "Strong Republican" := rfl

/-- C4: the political-lean categorization by exact thresholds, with both
boundary values, and a missing score mapping to "Unknown". -/
theorem categorize_lean_boundaries (s : ℚ) :
    (categorize_lean (.val s) = "Strong Democrat" ↔ 20 < s) ∧
    (categorize_lean (.val s) = "Lean Democrat" ↔ 5 < s ∧ s ≤ 20) ∧
    (categorize_lean (.val s) = "Swing" ↔ -5 < s ∧ s ≤ 5) ∧
    (categorize_lean (.val s) = "Lean Republican" ↔ -20 < s ∧ s ≤ -5) ∧
    (categorize_lean (.val s) = "Strong Republican" ↔ s ≤ -20) ∧
    categorize_lean .nan = "Unknown" ∧
    categorize_lean (.val 20) = "Lean Democrat" ∧
    categorize_lean (.val 5) = "Swing" := by
  refine ⟨?_, ?_, ?_, ?_, ?_, rfl, by norm_num [categorize_lean_val],
    by norm_num [categorize_lean_val]⟩ <;>
    · simp only [categorize_lean_val]
      split_ifs with h1 h2 h3 h4 <;> simp <;> push_neg at * <;>
        first
          | linarith
          | (constructor <;> linarith)
          | (intro h5; linarith)

/-- C5: for a county with an election record but zero two-party votes the
computation raises no division error (all steps are total): the lean score
is the missing value `NaN` and the political-lean category is "Unknown". -/
theorem leanScore_zero_total_votes (pv : PartyVotes) (h : totalVotes pv = 0) :
    leanScore pv = .nan ∧ pdIsna (leanScore pv) = true ∧
    categorize_lean (leanScore pv) = "Unknown" := by
  have hD : getVotes pv "DEMOCRAT" = 0 := by
    unfold totalVotes at h
    omega
  have hR : getVotes pv "REPUBLICAN" = 0 := by
    unfold totalVotes at h
    omega
  have hdem : demPct pv = .nan := by
    unfold demPct
    rw [hD, h]
    norm_num [pdDiv, pmul100, pround1]
  have hrep : repPct pv = .nan := by
    unfold repPct
    rw [hR, h]
    norm_num [pdDiv, pmul100, pround1]
  have hlean : leanScore pv = .nan := by
    unfold leanScore
    rw [hdem, hrep]
    rfl
  exact ⟨hlean, by rw [hlean]; rfl, by rw [hlean]; rfl⟩

/-- Witness for C5: a county whose only votes are third-party has zero
two-party votes, a `NaN` lean score and category "Unknown". -/
theorem leanScore_zero_total_votes_witness :
    leanScore [("GREEN", 100)] = .nan ∧
    pdIsna (leanScore [("GREEN", 100)]) = true ∧
    categorize_lean (leanScore [("GREEN", 100)]) = "Unknown" :=
  leanScore_zero_total_votes [("GREEN", 100)] (by decide)

/-- C6: with a positive two-party total, each party's share is its votes
over the Democrat+Republican total only, as a percentage rounded to one
decimal; the lean score is the rounded difference; the result does not
depend on third-party columns; and an absent party column counts as zero
votes. -/
theorem election_shares_and_lean (pv pv' : PartyVotes)
    (hpos : 0 < totalVotes pv)
    (hD : getVotes pv' "DEMOCRAT" = getVotes pv "DEMOCRAT")
    (hR : getVotes pv' "REPUBLICAN" = getVotes pv "REPUBLICAN") :
    demPct pv =
      .val (round1 ((getVotes pv "DEMOCRAT" : ℚ) / (totalVotes pv : ℚ) * 100)) ∧
    repPct pv =
      .val (round1 ((getVotes pv "REPUBLICAN" : ℚ) / (totalVotes pv : ℚ) * 100)) ∧
    leanScore pv =
      .val (round1
        (round1 ((getVotes pv "DEMOCRAT" : ℚ) / (totalVotes pv : ℚ) * 100) -
         round1 ((getVotes pv "REPUBLICAN" : ℚ) / (totalVotes pv : ℚ) * 100))) ∧
    demPct pv' = demPct pv ∧ repPct pv' = repPct pv ∧
    leanScore pv' = leanScore pv ∧
    (pv.find? (fun q => q.1 == "DEMOCRAT") = none →
      getVotes pv "DEMOCRAT" = 0) := by
  have hT0 : (totalVotes pv : ℚ) ≠ 0 := Nat.cast_ne_zero.mpr (by omega)
  have hdem : demPct pv =
      .val (round1 ((getVotes pv "DEMOCRAT" : ℚ) / (totalVotes pv : ℚ) * 100)) := by
    unfold demPct pdDiv
    rw [if_neg hT0]
    rfl
  have hrep : repPct pv =
      .val (round1 ((getVotes pv "REPUBLICAN" : ℚ) / (totalVotes pv : ℚ) * 100)) := by
    unfold repPct pdDiv
    rw [if_neg hT0]
    rfl
  have hTeq : totalVotes pv' = totalVotes pv := by
    unfold totalVotes
    rw [hD, hR]
  have hdem' : demPct pv' = demPct pv := by
    unfold demPct
    rw [hD, hTeq]
  have hrep' : repPct pv' = repPct pv := by
    unfold repPct
    rw [hR, hTeq]
  refine ⟨hdem, hrep, ?_, hdem', hrep', ?_, ?_⟩
  · unfold leanScore
    rw [hdem, hrep]
    rfl
  · unfold leanScore
    rw [hdem', hrep']
  · intro hf
    unfold getVotes
    rw [hf]
    rfl

/-- Witness for C6 at a county with 1 Democrat vote, no Republican column
and 2 third-party votes. -/
theorem election_shares_and_lean_witness :
    demPct [("DEMOCRAT", 1)] =
      .val (round1 ((getVotes [("DEMOCRAT", 1)] "DEMOCRAT" : ℚ) /
        (totalVotes [("DEMOCRAT", 1)] : ℚ) * 100)) ∧
    repPct [("DEMOCRAT", 1)] =
      .val (round1 ((getVotes [("DEMOCRAT", 1)] "REPUBLICAN" : ℚ) /
        (totalVotes [("DEMOCRAT", 1)] : ℚ) * 100)) ∧
    leanScore [("DEMOCRAT", 1)] =
      .val (round1
        (round1 ((getVotes [("DEMOCRAT", 1)] "DEMOCRAT" : ℚ) /
          (totalVotes [("DEMOCRAT", 1)] : ℚ) * 100) -
         round1 ((getVotes [("DEMOCRAT", 1)] "REPUBLICAN" : ℚ) /
          (totalVotes [("DEMOCRAT", 1)] : ℚ) * 100))) ∧
    demPct [("DEMOCRAT", 1), ("GREEN", 2)] = demPct [("DEMOCRAT", 1)] ∧
    repPct [("DEMOCRAT", 1), ("GREEN", 2)] = repPct [("DEMOCRAT", 1)] ∧
    leanScore [("DEMOCRAT", 1), ("GREEN", 2)] = leanScore [("DEMOCRAT", 1)] ∧
    (([("DEMOCRAT", 1)] : PartyVotes).find? (fun q => q.1 == "DEMOCRAT") = none →
      getVotes [("DEMOCRAT", 1)] "DEMOCRAT" = 0) :=
  election_shares_and_lean [("DEMOCRAT", 1)] [("DEMOCRAT", 1), ("GREEN", 2)]
    (by decide) (by decide) (by decide)

/-! ## Data-frame model (merge pipeline and derived fields, lines 128–199)

A data frame is a column list plus rows of present cells; an absent cell
is pandas `NaN`.  Values are strings or exact numbers. -/

/-- A cell value: a string or an exact numeric value. -/
inductive Val where
  | str (s : String)
  | num (q : ℚ)
deriving DecidableEq

/-- A data-frame row: the cells present (an absent column is `NaN`). -/
abbrev Row := List (String × Val)

/-- The cell of row `r` in column `c` (`none` means missing / `NaN`). -/
def Row.cell (r : Row) (c : String) : Option Val :=
  (r.find? (fun p => p.1 == c)).map (fun p => p.2)

/-- A data frame. -/
structure DF where
  cols : List String
  rows : List Row
deriving DecidableEq

/-- Pandas `df[cs]` column projection, on one row. -/
def Row.proj (r : Row) (cs : List String) : Row :=
  cs.filterMap (fun c => (r.cell c).map (fun v => (c, v)))

/-- Pandas `df[cs]` column projection. -/
def DF.proj (df : DF) (cs : List String) : DF :=
  ⟨cs, df.rows.map (fun r => r.proj cs)⟩

/-- Key equality for a pandas merge: the key cells are equal as values,
where a missing (`NaN`) key matches a missing key — pandas `merge`
treats `NaN` join keys as equal to each other. -/
def keyMatches (key : String) (lr rr : Row) : Bool :=
  Row.cell lr key == Row.cell rr key

/-- Drop one column from a row. -/
def Row.dropCol (r : Row) (c : String) : Row :=
  r.filter (fun p => !(p.1 == c))

/-- `left.merge(right, on=key, how='left')`: every left row is kept; a
row with no match keeps its fields and the right columns stay missing; a
row with matches is combined with each matching right row. -/
def leftMerge (l r : DF) (key : String) : DF where
  cols := l.cols ++ r.cols.filter (fun c => !(c == key))
  rows := l.rows.flatMap (fun lr =>
    let ms := r.rows.filter (keyMatches key lr)
    if ms.isEmpty then [lr] else ms.map (fun rr => lr ++ rr.dropCol key))

/-- Line 100 / 129: columns kept from the election table. -/
def elecKeepCols : List String := ["county_fips", "dem_pct", "rep_pct", "lean_score"]

/-- Line 130: columns kept from the gun-law table. -/
def gunKeepCols : List String := ["state_code", "gun_law_grade", "gun_death_rate"]

/-- Line 132: columns kept from the population table. -/
def popKeepCols : List String := ["county_fips", "population"]

/-- Line 138: columns kept from the exotic-animal table. -/
def exoticKeepCols : List String :=
  ["state_code", "exotic_animal_rating", "allows_primates", "allows_big_cats",
   "allows_reptiles"]

/-- Line 145: columns kept from the marijuana table. -/
def mjKeepCols : List String :=
  ["state_code", "marijuana_status", "recreational_legal", "medical_legal",
   "permissiveness_score"]

/-- Lines 128–147: the merge sequence anchored on the housing table.  The
optional frames are `none` when their CSV read failed (lines 110–123), in
which case their merge is skipped. -/
def mergeAll (housing elec gun pop : DF) (exotic mj : Option DF) : DF :=
  let m1 := leftMerge housing (elec.proj elecKeepCols) "county_fips"
  let m2 := leftMerge m1 (gun.proj gunKeepCols) "state_code"
  let m3 := leftMerge m2 (pop.proj popKeepCols) "county_fips"
  let m4 := match exotic with
    | some e => leftMerge m3 (e.proj exoticKeepCols) "state_code"
    | none => m3
  match mj with
  | some j => leftMerge m4 (j.proj mjKeepCols) "state_code"
  | none => m4

/-- Lines 51–74: merge the optional 4-bedroom and 5-bedroom housing
tables (each carrying its derived value column) into the cleaned housing
anchor by a left join on `county_fips`; a `none` source (read failure,
lines 23–35) is skipped. -/
def addBedroomCols (base : DF) (h4 h5 : Option DF) : DF :=
  let b4 := match h4 with
    | some df4 =>
      leftMerge base (df4.proj ["county_fips", "median_home_value_4br"])
        "county_fips"
    | none => base
  match h5 with
  | some df5 =>
    leftMerge b4 (df5.proj ["county_fips", "median_home_value_5br"])
      "county_fips"
  | none => b4

/-- Modelled from the spec's words, for comparison with `addBedroomCols`:
the bedroom-column step with the 4-bedroom join simply skipped, as the
spec says happens when that optional source is absent. -/
def addBedroomColsSkipping4BR (base : DF) (h5 : Option DF) : DF :=
  match h5 with
  | some df5 =>
    leftMerge base (df5.proj ["county_fips", "median_home_value_5br"])
      "county_fips"
  | none => base

/-- Modelled from the spec's words, for comparison with `addBedroomCols`:
the bedroom-column step with the 5-bedroom join simply skipped. -/
def addBedroomColsSkipping5BR (base : DF) (h4 : Option DF) : DF :=
  match h4 with
  | some df4 =>
    leftMerge base (df4.proj ["county_fips", "median_home_value_4br"])
      "county_fips"
  | none => base

/-- Modelled from the spec's words, for comparison with `mergeAll`: the
merge sequence with the exotic-animal join simply skipped, as the spec
says happens when that optional source is absent. -/
def mergeAllSkippingExotic (housing elec gun pop : DF) (mj : Option DF) : DF :=
  let m1 := leftMerge housing (elec.proj elecKeepCols) "county_fips"
  let m2 := leftMerge m1 (gun.proj gunKeepCols) "state_code"
  let m3 := leftMerge m2 (pop.proj popKeepCols) "county_fips"
  match mj with
  | some j => leftMerge m3 (j.proj mjKeepCols) "state_code"
  | none => m3

/-- Modelled from the spec's words, for comparison with `mergeAll`: the
merge sequence with the marijuana join simply skipped, as the spec says
happens when that optional source is absent. -/
def mergeAllSkippingMarijuana (housing elec gun pop : DF)
    (exotic : Option DF) : DF :=
  let m1 := leftMerge housing (elec.proj elecKeepCols) "county_fips"
  let m2 := leftMerge m1 (gun.proj gunKeepCols) "state_code"
  let m3 := leftMerge m2 (pop.proj popKeepCols) "county_fips"
  match exotic with
  | some e => leftMerge m3 (e.proj exoticKeepCols) "state_code"
  | none => m3

/-- Line 150: `merged.dropna(subset=['median_home_value_all'])`. -/
def dropnaHome (df : DF) : DF :=
  ⟨df.cols, df.rows.filter (fun r => (r.cell "median_home_value_all").isSome)⟩

/-! ### Currency formatting (lines 153–165) -/

/-- Helper for comma grouping: the digit list is reversed (least
significant first); a comma is inserted after every third digit that is
followed by more digits. -/
def commaRevAux : List Char → Nat → List Char
  | [], _ => []
  | [c], _ => [c]
  | c :: rest, 0 => c :: ',' :: commaRevAux rest 2
  | c :: rest, k + 1 => c :: commaRevAux rest k

/-- `f"{n:,}"` for a natural number: decimal digits grouped in threes. -/
def commaSepNat (n : Nat) : List Char :=
  (commaRevAux (natDigits n).reverse 2).reverse

/-- Python `f"${x:,.0f}"`: `$`, then the value rounded to an integer
(ties to even) with thousands separators. -/
def moneyFmt (q : ℚ) : String :=
  let i := roundHalfEven q
  if i < 0 then ⟨'$' :: '-' :: commaSepNat i.natAbs⟩
  else ⟨'$' :: commaSepNat i.natAbs⟩

/-- Lines 153–155 (and 157–165), cell level:
`lambda x: f"${x:,.0f}" if pd.notna(x) else "N/A"`.  A present
non-numeric cell would raise in Python, hence `none`. -/
def fmtCell : Option Val → Option String
  | none => some "N/A"
  | some (.num q) => some (moneyFmt q)
  | some (.str _) => none

/-- Line 182, cell level: `categorize_lean` on a `lean_score` cell; an
absent cell is `NaN`; a present string cell would raise on `>`. -/
def catLeanCell : Option Val → Option String
  | none => some (categorize_lean .nan)
  | some (.num q) => some (categorize_lean (.val q))
  | some (.str _) => none

/-- Line 199, cell level: `categorize_gun_law` on a `gun_law_grade` cell;
an absent cell is `NaN`; a numeric grade is in none of the grade lists,
so it falls through to `"Minimal"` exactly as in Python. -/
def catGunCell : Option Val → Option String
  | none => some (categorize_gun_law none)
  | some (.str g) => some (categorize_gun_law (some g))
  | some (.num _) => some "Minimal"

/-- `merged[new] = merged[col].apply(f)` row by row; `none` when `f`
raises on some row. -/
def applyCol (col new : String) (f : Option Val → Option String) :
    List Row → Option (List Row)
  | [] => some []
  | r :: rs =>
    match f (r.cell col), applyCol col new f rs with
    | some s, some rs' => some ((r ++ [(new, Val.str s)]) :: rs')
    | _, _ => none

/-- Lines 150–199: the tail of the pipeline after the merges — the
home-value filter, the formatted columns (the 4BR/5BR ones only when
their source column exists), and the two category columns. -/
def deriveTail (merged : DF) : Option DF :=
  let d := dropnaHome merged
  (applyCol "median_home_value_all" "median_home_value_all_formatted"
      fmtCell d.rows).bind (fun r1 =>
  (if "median_home_value_4br" ∈ d.cols then
      applyCol "median_home_value_4br" "median_home_value_4br_formatted" fmtCell r1
    else some r1).bind (fun r2 =>
  (if "median_home_value_5br" ∈ d.cols then
      applyCol "median_home_value_5br" "median_home_value_5br_formatted" fmtCell r2
    else some r2).bind (fun r3 =>
  (applyCol "lean_score" "political_lean" catLeanCell r3).bind (fun r4 =>
  (applyCol "gun_law_grade" "gun_law_strength" catGunCell r4).map (fun r5 =>
  ⟨d.cols ++ ["median_home_value_all_formatted"] ++
    (if "median_home_value_4br" ∈ d.cols then ["median_home_value_4br_formatted"]
     else []) ++
    (if "median_home_value_5br" ∈ d.cols then ["median_home_value_5br_formatted"]
     else []) ++
    ["political_lean", "gun_law_strength"], r5⟩)))))

/-! ### Row-cell lemmas -/

theorem cell_append_left (r₁ r₂ : Row) (c : String)
    (h : (Row.cell r₁ c).isSome = true) :
    Row.cell (r₁ ++ r₂) c = Row.cell r₁ c := by
  induction r₁ with
  | nil => simp [Row.cell] at h
  | cons p t ih =>
    cases hq : (p.1 == c) <;>
      simp only [Row.cell, List.cons_append, List.find?_cons, hq] at * <;>
      first
        | rfl
        | exact ih h

theorem cell_append_right (r₁ r₂ : Row) (c : String)
    (h : Row.cell r₁ c = none) :
    Row.cell (r₁ ++ r₂) c = Row.cell r₂ c := by
  induction r₁ with
  | nil => rfl
  | cons p t ih =>
    cases hq : (p.1 == c) <;>
      simp only [Row.cell, List.cons_append, List.find?_cons, hq] at * <;>
      first
        | exact ih h
        | exact absurd h (by simp)

/-- Row `ext` keeps every present cell of row `base`. -/
def RowExtends (base ext : Row) : Prop :=
  ∀ c v, Row.cell base c = some v → Row.cell ext c = some v

theorem rowExtends_refl (r : Row) : RowExtends r r := fun _ _ h => h

theorem rowExtends_append (r x : Row) : RowExtends r (r ++ x) := by
  intro c v h
  rw [cell_append_left r x c (by rw [h]; rfl)]
  exact h

theorem rowExtends_trans {a b c : Row} (h₁ : RowExtends a b)
    (h₂ : RowExtends b c) : RowExtends a c :=
  fun col v h => h₂ col v (h₁ col v h)

/-! ### `applyCol` lemmas -/

theorem applyCol_forall₂ (col new : String) (f : Option Val → Option String)
    (rows rows' : List Row) (h : applyCol col new f rows = some rows') :
    List.Forall₂ (fun r r' => ∃ s, f (Row.cell r col) = some s ∧
      r' = r ++ [(new, Val.str s)]) rows rows' := by
  induction rows generalizing rows' with
  | nil =>
    simp only [applyCol, Option.some.injEq] at h
    subst h
    exact List.Forall₂.nil
  | cons r rs ih =>
    simp only [applyCol] at h
    cases hf : f (Row.cell r col) with
    | none =>
      rw [hf] at h
      exact absurd h (by simp)
    | some s =>
      rw [hf] at h
      cases hrec : applyCol col new f rs with
      | none =>
        rw [hrec] at h
        exact absurd h (by simp)
      | some rs' =>
        rw [hrec] at h
        simp only [Option.some.injEq] at h
        subst h
        exact List.Forall₂.cons ⟨s, hf, rfl⟩ (ih rs' hrec)

theorem forall₂_mem_right {α β : Type} {R : α → β → Prop} {l : List α}
    {l' : List β} (h : List.Forall₂ R l l') : ∀ b ∈ l', ∃ a ∈ l, R a b := by
  induction h with
  | nil => simp
  | cons hR hF ih =>
    intro b hb
    rcases List.mem_cons.mp hb with rfl | hb'
    · exact ⟨_, List.mem_cons_self _ _, hR⟩
    · obtain ⟨a, ha, hab⟩ := ih b hb'
      exact ⟨a, List.mem_cons_of_mem _ ha, hab⟩

theorem applyCol_preserves_isSome (col new : String) (f : Option Val → Option String)
    (rows rows' : List Row) (c : String)
    (h : applyCol col new f rows = some rows')
    (hall : ∀ r ∈ rows, (Row.cell r c).isSome = true) :
    ∀ r' ∈ rows', (Row.cell r' c).isSome = true := by
  intro r' hr'
  obtain ⟨r, hr, s, _, rfl⟩ :=
    forall₂_mem_right (applyCol_forall₂ col new f rows rows' h) r' hr'
  rw [cell_append_left _ _ c (hall r hr)]
  exact hall r hr

theorem stepPreservesIsSome {b : Prop} [Decidable b] (col new : String)
    (f : Option Val → Option String) (rows rows' : List Row) (c : String)
    (h : (if b then applyCol col new f rows else some rows) = some rows')
    (hall : ∀ r ∈ rows, (Row.cell r c).isSome = true) :
    ∀ r' ∈ rows', (Row.cell r' c).isSome = true := by
  split at h
  · exact applyCol_preserves_isSome col new f rows rows' c h hall
  · simp only [Option.some.injEq] at h
    subst h
    exact hall

theorem deriveTail_destruct (merged out : DF) (h : deriveTail merged = some out) :
    ∃ r1 r2 r3 r4 r5,
      applyCol "median_home_value_all" "median_home_value_all_formatted" fmtCell
        (dropnaHome merged).rows = some r1 ∧
      (if "median_home_value_4br" ∈ (dropnaHome merged).cols then
        applyCol "median_home_value_4br" "median_home_value_4br_formatted" fmtCell r1
       else some r1) = some r2 ∧
      (if "median_home_value_5br" ∈ (dropnaHome merged).cols then
        applyCol "median_home_value_5br" "median_home_value_5br_formatted" fmtCell r2
       else some r2) = some r3 ∧
      applyCol "lean_score" "political_lean" catLeanCell r3 = some r4 ∧
      applyCol "gun_law_grade" "gun_law_strength" catGunCell r4 = some r5 ∧
      out.rows = r5 := by
  unfold deriveTail at h
  simp only [Option.bind_eq_some, Option.map_eq_some'] at h
  obtain ⟨r1, h1, r2, h2, r3, h3, r4, h4, r5, h5, hout⟩ := h
  exact ⟨r1, r2, r3, r4, r5, h1, h2, h3, h4, h5, by rw [← hout]⟩

theorem deriveTail_cols (merged out : DF) (h : deriveTail merged = some out) :
    out.cols = merged.cols ++ ["median_home_value_all_formatted"] ++
      (if "median_home_value_4br" ∈ merged.cols then
        ["median_home_value_4br_formatted"] else []) ++
      (if "median_home_value_5br" ∈ merged.cols then
        ["median_home_value_5br_formatted"] else []) ++
      ["political_lean", "gun_law_strength"] := by
  unfold deriveTail at h
  simp only [Option.bind_eq_some, Option.map_eq_some'] at h
  obtain ⟨r1, h1, r2, h2, r3, h3, r4, h4, r5, h5, hout⟩ := h
  rw [← hout]
  rfl

theorem proj_cols (df : DF) (cs : List String) : (df.proj cs).cols = cs := rfl

theorem mem_leftMerge_cols (l r : DF) (key c : String) :
    c ∈ (leftMerge l r key).cols ↔ c ∈ l.cols ∨ (c ∈ r.cols ∧ c ≠ key) := by
  unfold leftMerge
  simp [List.mem_append, List.mem_filter]

/-- C7: an absent or unreadable optional source (4BR housing, 5BR
housing, exotic animals, or marijuana) does not fail the pipeline: its
join is skipped, the result coincides with the spec's
pipeline-without-that-source — same row count in particular — and, as
long as the other tables do not already carry them, the corresponding
columns (including the derived 4BR/5BR formatted columns, whose
computation is skipped) are omitted from the output entirely. -/
theorem optional_source_absent_skipped_and_omitted
    (housing base elec gun pop : DF) (h4 h5 exotic mj : Option DF)
    (merged out : DF)
    (hx1 : "exotic_animal_rating" ∉ housing.cols)
    (hx2 : "allows_primates" ∉ housing.cols)
    (hx3 : "allows_big_cats" ∉ housing.cols)
    (hx4 : "allows_reptiles" ∉ housing.cols)
    (hj1 : "marijuana_status" ∉ housing.cols)
    (hj2 : "recreational_legal" ∉ housing.cols)
    (hj3 : "medical_legal" ∉ housing.cols)
    (hj4 : "permissiveness_score" ∉ housing.cols)
    (hb4 : "median_home_value_4br" ∉ base.cols)
    (hb5 : "median_home_value_5br" ∉ base.cols)
    (hd4 : "median_home_value_4br" ∉ merged.cols)
    (hd5 : "median_home_value_5br" ∉ merged.cols)
    (hf4 : "median_home_value_4br_formatted" ∉ merged.cols)
    (hf5 : "median_home_value_5br_formatted" ∉ merged.cols)
    (hout : deriveTail merged = some out) :
    mergeAll housing elec gun pop none mj =
      mergeAllSkippingExotic housing elec gun pop mj ∧
    (mergeAll housing elec gun pop none mj).rows.length =
      (mergeAllSkippingExotic housing elec gun pop mj).rows.length ∧
    "exotic_animal_rating" ∉ (mergeAll housing elec gun pop none mj).cols ∧
    "allows_primates" ∉ (mergeAll housing elec gun pop none mj).cols ∧
    "allows_big_cats" ∉ (mergeAll housing elec gun pop none mj).cols ∧
    "allows_reptiles" ∉ (mergeAll housing elec gun pop none mj).cols ∧
    mergeAll housing elec gun pop exotic none =
      mergeAllSkippingMarijuana housing elec gun pop exotic ∧
    (mergeAll housing elec gun pop exotic none).rows.length =
      (mergeAllSkippingMarijuana housing elec gun pop exotic).rows.length ∧
    "marijuana_status" ∉ (mergeAll housing elec gun pop exotic none).cols ∧
    "recreational_legal" ∉ (mergeAll housing elec gun pop exotic none).cols ∧
    "medical_legal" ∉ (mergeAll housing elec gun pop exotic none).cols ∧
    "permissiveness_score" ∉ (mergeAll housing elec gun pop exotic none).cols ∧
    addBedroomCols base none h5 = addBedroomColsSkipping4BR base h5 ∧
    "median_home_value_4br" ∉ (addBedroomCols base none h5).cols ∧
    addBedroomCols base h4 none = addBedroomColsSkipping5BR base h4 ∧
    "median_home_value_5br" ∉ (addBedroomCols base h4 none).cols ∧
    "median_home_value_4br_formatted" ∉ out.cols ∧
    "median_home_value_5br_formatted" ∉ out.cols ∧
    "median_home_value_4br" ∉ out.cols ∧
    "median_home_value_5br" ∉ out.cols ∧
    (∀ c, c ∉ merged.cols → c ≠ "median_home_value_all_formatted" →
      c ≠ "median_home_value_4br_formatted" →
      c ≠ "median_home_value_5br_formatted" →
      c ≠ "political_lean" → c ≠ "gun_law_strength" → c ∉ out.cols) := by
  have heqx : mergeAll housing elec gun pop none mj =
      mergeAllSkippingExotic housing elec gun pop mj := by
    cases mj <;> rfl
  have heqj : mergeAll housing elec gun pop exotic none =
      mergeAllSkippingMarijuana housing elec gun pop exotic := by
    cases exotic <;> rfl
  have heq4 : addBedroomCols base none h5 = addBedroomColsSkipping4BR base h5 := by
    cases h5 <;> rfl
  have heq5 : addBedroomCols base h4 none = addBedroomColsSkipping5BR base h4 := by
    cases h4 <;> rfl
  have hcout : out.cols = merged.cols ++ ["median_home_value_all_formatted"] ++
      [] ++ [] ++ ["political_lean", "gun_law_strength"] := by
    rw [deriveTail_cols merged out hout, if_neg hd4, if_neg hd5]
  refine ⟨heqx, by rw [heqx], ?_, ?_, ?_, ?_,
    heqj, by rw [heqj], ?_, ?_, ?_, ?_,
    heq4, ?_, heq5, ?_, ?_, ?_, ?_, ?_, ?_⟩
  · rw [heqx]
    cases mj <;>
      simp [mergeAllSkippingExotic, mem_leftMerge_cols, proj_cols,
        elecKeepCols, gunKeepCols, popKeepCols, mjKeepCols, hx1]
  · rw [heqx]
    cases mj <;>
      simp [mergeAllSkippingExotic, mem_leftMerge_cols, proj_cols,
        elecKeepCols, gunKeepCols, popKeepCols, mjKeepCols, hx2]
  · rw [heqx]
    cases mj <;>
      simp [mergeAllSkippingExotic, mem_leftMerge_cols, proj_cols,
        elecKeepCols, gunKeepCols, popKeepCols, mjKeepCols, hx3]
  · rw [heqx]
    cases mj <;>
      simp [mergeAllSkippingExotic, mem_leftMerge_cols, proj_cols,
        elecKeepCols, gunKeepCols, popKeepCols, mjKeepCols, hx4]
  · rw [heqj]
    cases exotic <;>
      simp [mergeAllSkippingMarijuana, mem_leftMerge_cols, proj_cols,
        elecKeepCols, gunKeepCols, popKeepCols, exoticKeepCols, hj1]
  · rw [heqj]
    cases exotic <;>
      simp [mergeAllSkippingMarijuana, mem_leftMerge_cols, proj_cols,
        elecKeepCols, gunKeepCols, popKeepCols, exoticKeepCols, hj2]
  · rw [heqj]
    cases exotic <;>
      simp [mergeAllSkippingMarijuana, mem_leftMerge_cols, proj_cols,
        elecKeepCols, gunKeepCols, popKeepCols, exoticKeepCols, hj3]
  · rw [heqj]
    cases exotic <;>
      simp [mergeAllSkippingMarijuana, mem_leftMerge_cols, proj_cols,
        elecKeepCols, gunKeepCols, popKeepCols, exoticKeepCols, hj4]
  · rw [heq4]
    cases h5 <;>
      simp [addBedroomColsSkipping4BR, mem_leftMerge_cols, proj_cols, hb4]
  · rw [heq5]
    cases h4 <;>
      simp [addBedroomColsSkipping5BR, mem_leftMerge_cols, proj_cols, hb5]
  · rw [hcout]
    simp [List.mem_append, hf4]
  · rw [hcout]
    simp [List.mem_append, hf5]
  · rw [hcout]
    simp [List.mem_append, hd4]
  · rw [hcout]
    simp [List.mem_append, hd5]
  · intro c h0 n1 n2 n3 n4 n5 hmem
    rw [hcout] at hmem
    simp only [List.append_nil, List.mem_append, List.mem_singleton,
      List.mem_cons, List.not_mem_nil, or_false] at hmem
    tauto

/-- Concrete merged table for the C7 witness. -/
def wMerged : DF := ⟨["median_home_value_all"],
  [[("median_home_value_all", Val.num 1)]]⟩

/-- `deriveTail wMerged`, for the C7 witness. -/
def wOut : DF :=
  ⟨["median_home_value_all", "median_home_value_all_formatted",
    "political_lean", "gun_law_strength"],
   [[("median_home_value_all", Val.num 1),
     ("median_home_value_all_formatted", Val.str "$1"),
     ("political_lean", Val.str "Unknown"),
     ("gun_law_strength", Val.str "Unknown")]]⟩

/-- Concrete anchor table for the C7 witness. -/
def wAnchor : DF :=
  ⟨["county_fips", "county_name", "state_name", "state_code",
    "median_home_value_all"], [[("county_fips", Val.str "01001")]]⟩

/-- Witness for C7 with every optional source absent, on small concrete
tables. -/
theorem optional_source_absent_skipped_and_omitted_witness :
    mergeAll wAnchor ⟨[], []⟩ ⟨[], []⟩ ⟨[], []⟩ none none =
      mergeAllSkippingExotic wAnchor ⟨[], []⟩ ⟨[], []⟩ ⟨[], []⟩ none ∧
    (mergeAll wAnchor ⟨[], []⟩ ⟨[], []⟩ ⟨[], []⟩ none none).rows.length =
      (mergeAllSkippingExotic wAnchor ⟨[], []⟩ ⟨[], []⟩ ⟨[], []⟩
        none).rows.length ∧
    "exotic_animal_rating" ∉
      (mergeAll wAnchor ⟨[], []⟩ ⟨[], []⟩ ⟨[], []⟩ none none).cols ∧
    "allows_primates" ∉
      (mergeAll wAnchor ⟨[], []⟩ ⟨[], []⟩ ⟨[], []⟩ none none).cols ∧
    "allows_big_cats" ∉
      (mergeAll wAnchor ⟨[], []⟩ ⟨[], []⟩ ⟨[], []⟩ none none).cols ∧
    "allows_reptiles" ∉
      (mergeAll wAnchor ⟨[], []⟩ ⟨[], []⟩ ⟨[], []⟩ none none).cols ∧
    mergeAll wAnchor ⟨[], []⟩ ⟨[], []⟩ ⟨[], []⟩ none none =
      mergeAllSkippingMarijuana wAnchor ⟨[], []⟩ ⟨[], []⟩ ⟨[], []⟩ none ∧
    (mergeAll wAnchor ⟨[], []⟩ ⟨[], []⟩ ⟨[], []⟩ none none).rows.length =
      (mergeAllSkippingMarijuana wAnchor ⟨[], []⟩ ⟨[], []⟩ ⟨[], []⟩
        none).rows.length ∧
    "marijuana_status" ∉
      (mergeAll wAnchor ⟨[], []⟩ ⟨[], []⟩ ⟨[], []⟩ none none).cols ∧
    "recreational_legal" ∉
      (mergeAll wAnchor ⟨[], []⟩ ⟨[], []⟩ ⟨[], []⟩ none none).cols ∧
    "medical_legal" ∉
      (mergeAll wAnchor ⟨[], []⟩ ⟨[], []⟩ ⟨[], []⟩ none none).cols ∧
    "permissiveness_score" ∉
      (mergeAll wAnchor ⟨[], []⟩ ⟨[], []⟩ ⟨[], []⟩ none none).cols ∧
    addBedroomCols wAnchor none none = addBedroomColsSkipping4BR wAnchor none ∧
    "median_home_value_4br" ∉ (addBedroomCols wAnchor none none).cols ∧
    addBedroomCols wAnchor none none = addBedroomColsSkipping5BR wAnchor none ∧
    "median_home_value_5br" ∉ (addBedroomCols wAnchor none none).cols ∧
    "median_home_value_4br_formatted" ∉ wOut.cols ∧
    "median_home_value_5br_formatted" ∉ wOut.cols ∧
    "median_home_value_4br" ∉ wOut.cols ∧
    "median_home_value_5br" ∉ wOut.cols ∧
    (∀ c, c ∉ wMerged.cols → c ≠ "median_home_value_all_formatted" →
      c ≠ "median_home_value_4br_formatted" →
      c ≠ "median_home_value_5br_formatted" →
      c ≠ "political_lean" → c ≠ "gun_law_strength" → c ∉ wOut.cols) :=
  optional_source_absent_skipped_and_omitted
    wAnchor wAnchor ⟨[], []⟩ ⟨[], []⟩ ⟨[], []⟩ none none none none
    wMerged wOut
    (by decide) (by decide) (by decide) (by decide)
    (by decide) (by decide) (by decide) (by decide)
    (by decide) (by decide) (by decide) (by decide)
    (by decide) (by decide) (by decide)

/-- C8: every row of the pipeline output has a present (non-missing)
overall median home value, and the home-value filter is idempotent on the
output: re-applying it returns the table unchanged. -/
theorem output_home_present_and_filter_idempotent (merged out : DF)
    (h : deriveTail merged = some out) :
    (∀ r ∈ out.rows, (Row.cell r "median_home_value_all").isSome = true) ∧
    dropnaHome out = out := by
  obtain ⟨r1, r2, r3, r4, r5, h1, h2, h3, h4, h5, hrows⟩ :=
    deriveTail_destruct merged out h
  have base : ∀ r ∈ (dropnaHome merged).rows,
      (Row.cell r "median_home_value_all").isSome = true := by
    intro r hr
    exact (List.mem_filter.mp hr).2
  have a1 := applyCol_preserves_isSome _ _ _ _ _ _ h1 base
  have a2 := stepPreservesIsSome _ _ _ _ _ _ h2 a1
  have a3 := stepPreservesIsSome _ _ _ _ _ _ h3 a2
  have a4 := applyCol_preserves_isSome _ _ _ _ _ _ h4 a3
  have a5 := applyCol_preserves_isSome _ _ _ _ _ _ h5 a4
  have hall : ∀ r ∈ out.rows, (Row.cell r "median_home_value_all").isSome = true := by
    rw [hrows]
    exact a5
  refine ⟨hall, ?_⟩
  unfold dropnaHome
  rw [List.filter_eq_self.mpr hall]

/-- Witness for C8 on a one-row, one-column merged table. -/
theorem output_home_present_and_filter_idempotent_witness :
    (∀ r ∈ (DF.mk
        ["median_home_value_all", "median_home_value_all_formatted",
         "political_lean", "gun_law_strength"]
        [[("median_home_value_all", Val.num 1),
          ("median_home_value_all_formatted", Val.str "$1"),
          ("political_lean", Val.str "Unknown"),
          ("gun_law_strength", Val.str "Unknown")]]).rows,
      (Row.cell r "median_home_value_all").isSome = true) ∧
    dropnaHome (DF.mk
        ["median_home_value_all", "median_home_value_all_formatted",
         "political_lean", "gun_law_strength"]
        [[("median_home_value_all", Val.num 1),
          ("median_home_value_all_formatted", Val.str "$1"),
          ("political_lean", Val.str "Unknown"),
          ("gun_law_strength", Val.str "Unknown")]]) =
      DF.mk
        ["median_home_value_all", "median_home_value_all_formatted",
         "political_lean", "gun_law_strength"]
        [[("median_home_value_all", Val.num 1),
          ("median_home_value_all_formatted", Val.str "$1"),
          ("political_lean", Val.str "Unknown"),
          ("gun_law_strength", Val.str "Unknown")]] :=
  output_home_present_and_filter_idempotent
    ⟨["median_home_value_all"], [[("median_home_value_all", Val.num 1)]]⟩
    (DF.mk
        ["median_home_value_all", "median_home_value_all_formatted",
         "political_lean", "gun_law_strength"]
        [[("median_home_value_all", Val.num 1),
          ("median_home_value_all_formatted", Val.str "$1"),
          ("political_lean", Val.str "Unknown"),
          ("gun_law_strength", Val.str "Unknown")]])
    (by decide)

theorem moneyFmt_ne_NA (q : ℚ) : moneyFmt q ≠ "N/A" := by
  have hNA : "N/A".data = ['N', '/', 'A'] := rfl
  by_cases hneg : roundHalfEven q < 0 <;>
  · intro hEq
    have hdata := congrArg String.data hEq
    rw [hNA] at hdata
    simp [moneyFmt, hneg] at hdata

/-- A successful `applyCol` step sends each row to an extension whose
pre-existing present cells are unchanged. -/
theorem applyCol_cell_preserved (col new : String) (f : Option Val → Option String)
    (rows rows' : List Row) (h : applyCol col new f rows = some rows') :
    ∀ r' ∈ rows', ∃ r ∈ rows,
      ∀ c, (Row.cell r c).isSome = true → Row.cell r' c = Row.cell r c := by
  intro r' hr'
  obtain ⟨r, hr, s, _, rfl⟩ :=
    forall₂_mem_right (applyCol_forall₂ col new f rows rows' h) r' hr'
  exact ⟨r, hr, fun c hc => cell_append_left _ _ c hc⟩

theorem stage_preserves_fmtCell (fm col new : String) (f : Option Val → Option String)
    (rows rows' : List Row) (h : applyCol col new f rows = some rows')
    (hP : ∀ r ∈ rows, ∃ q : ℚ, Row.cell r fm = some (Val.str (moneyFmt q))) :
    ∀ r' ∈ rows', ∃ q : ℚ, Row.cell r' fm = some (Val.str (moneyFmt q)) := by
  intro r' hr'
  obtain ⟨r, hr, hpres⟩ := applyCol_cell_preserved col new f rows rows' h r' hr'
  obtain ⟨q, hq⟩ := hP r hr
  exact ⟨q, by rw [hpres fm (by rw [hq]; rfl)]; exact hq⟩

theorem step_preserves_fmtCell {b : Prop} [Decidable b] (fm col new : String)
    (f : Option Val → Option String) (rows rows' : List Row)
    (h : (if b then applyCol col new f rows else some rows) = some rows')
    (hP : ∀ r ∈ rows, ∃ q : ℚ, Row.cell r fm = some (Val.str (moneyFmt q))) :
    ∀ r' ∈ rows', ∃ q : ℚ, Row.cell r' fm = some (Val.str (moneyFmt q)) := by
  split at h
  · exact stage_preserves_fmtCell fm col new f rows rows' h hP
  · simp only [Option.some.injEq] at h
    subst h
    exact hP

/-- C10: in every output row the formatted overall home value is a
currency string `moneyFmt q` and never the `"N/A"` sentinel, because rows
with a missing overall home value were dropped before formatting; the
`"N/A"` branch itself is reachable, e.g. for the optional 4BR field on a
row whose 4BR value is missing. -/
theorem formatted_home_value_is_currency_never_na (merged out : DF)
    (hclean : ∀ r ∈ merged.rows,
      Row.cell r "median_home_value_all_formatted" = none)
    (h : deriveTail merged = some out) :
    (∀ r ∈ out.rows, ∃ q : ℚ,
      Row.cell r "median_home_value_all_formatted" = some (Val.str (moneyFmt q)) ∧
      moneyFmt q ≠ "N/A") ∧
    fmtCell none = some "N/A" ∧
    applyCol "median_home_value_4br" "median_home_value_4br_formatted" fmtCell
        [[("median_home_value_all", Val.num 1)]] =
      some [[("median_home_value_all", Val.num 1),
             ("median_home_value_4br_formatted", Val.str "N/A")]] := by
  obtain ⟨r1, r2, r3, r4, r5, h1, h2, h3, h4, h5, hrows⟩ :=
    deriveTail_destruct merged out h
  have p1 : ∀ r' ∈ r1, ∃ q : ℚ,
      Row.cell r' "median_home_value_all_formatted" =
        some (Val.str (moneyFmt q)) := by
    intro r' hr'
    obtain ⟨r, hr, s, hs, rfl⟩ :=
      forall₂_mem_right (applyCol_forall₂ _ _ _ _ _ h1) r' hr'
    have hrm : r ∈ merged.rows := (List.mem_filter.mp hr).1
    have hsome : (Row.cell r "median_home_value_all").isSome = true :=
      (List.mem_filter.mp hr).2
    obtain ⟨v, hv⟩ := Option.isSome_iff_exists.mp hsome
    have hnone := hclean r hrm
    rw [cell_append_right _ _ _ hnone]
    cases v with
    | str t =>
      rw [hv] at hs
      exact absurd hs (by simp [fmtCell])
    | num q =>
      rw [hv] at hs
      simp only [fmtCell, Option.some.injEq] at hs
      subst hs
      exact ⟨q, by simp [Row.cell]⟩
  have p2 := step_preserves_fmtCell _ _ _ _ _ _ h2 p1
  have p3 := step_preserves_fmtCell _ _ _ _ _ _ h3 p2
  have p4 := stage_preserves_fmtCell _ _ _ _ _ _ h4 p3
  have p5 := stage_preserves_fmtCell _ _ _ _ _ _ h5 p4
  refine ⟨?_, rfl, by decide⟩
  intro r hr
  obtain ⟨q, hq⟩ := p5 r (by rw [← hrows]; exact hr)
  exact ⟨q, hq, moneyFmt_ne_NA q⟩

/-- Witness for C10 on a one-row merged table. -/
theorem formatted_home_value_is_currency_never_na_witness :
    (∀ r ∈ (DF.mk
        ["median_home_value_all", "median_home_value_all_formatted",
         "political_lean", "gun_law_strength"]
        [[("median_home_value_all", Val.num 1),
          ("median_home_value_all_formatted", Val.str "$1"),
          ("political_lean", Val.str "Unknown"),
          ("gun_law_strength", Val.str "Unknown")]]).rows, ∃ q : ℚ,
      Row.cell r "median_home_value_all_formatted" = some (Val.str (moneyFmt q)) ∧
      moneyFmt q ≠ "N/A") ∧
    fmtCell none = some "N/A" ∧
    applyCol "median_home_value_4br" "median_home_value_4br_formatted" fmtCell
        [[("median_home_value_all", Val.num 1)]] =
      some [[("median_home_value_all", Val.num 1),
             ("median_home_value_4br_formatted", Val.str "N/A")]] :=
  formatted_home_value_is_currency_never_na
    ⟨["median_home_value_all"], [[("median_home_value_all", Val.num 1)]]⟩
    (DF.mk
        ["median_home_value_all", "median_home_value_all_formatted",
         "political_lean", "gun_law_strength"]
        [[("median_home_value_all", Val.num 1),
          ("median_home_value_all_formatted", Val.str "$1"),
          ("political_lean", Val.str "Unknown"),
          ("gun_law_strength", Val.str "Unknown")]])
    (by decide) (by decide)

/-! ### Left-join row accounting (for C9) -/

/-- No two rows of `rows` share a join-key cell in column `key`, where a
missing (`NaN`) key counts as a key value of its own (pandas `merge`
matches `NaN` keys with each other). -/
def uniqKey (key : String) : List Row → Bool
  | [] => true
  | r :: rs =>
    rs.all (fun r' => !(Row.cell r' key == Row.cell r key)) &&
    uniqKey key rs

/-- A joined source has at most one row per join-key value. -/
@[reducible]
def UniqueKey (df : DF) (key : String) : Prop := uniqKey key df.rows = true

theorem keyMatches_eq (key : String) (lr rr : Row)
    (h : keyMatches key lr rr = true) :
    Row.cell lr key = Row.cell rr key := by
  unfold keyMatches at h
  exact beq_iff_eq.mp h

theorem filter_keyMatches_le_one (key : String) (lr : Row) (rows : List Row)
    (hu : uniqKey key rows = true) :
    (rows.filter (keyMatches key lr)).length ≤ 1 := by
  induction rows with
  | nil => simp
  | cons r rs ih =>
    simp only [uniqKey, Bool.and_eq_true] at hu
    obtain ⟨hhead, htail⟩ := hu
    by_cases hm : keyMatches key lr r = true
    · rw [List.filter_cons_of_pos hm]
      have hnil : rs.filter (keyMatches key lr) = [] := by
        rw [List.filter_eq_nil_iff]
        intro r' hr' hm'
        have hra := keyMatches_eq key lr r hm
        have hra' := keyMatches_eq key lr r' hm'
        simp only [List.all_eq_true] at hhead
        have := hhead r' hr'
        have heq : Row.cell r' key = Row.cell r key := by
          rw [← hra', hra]
        rw [heq] at this
        simp at this
      rw [hnil]
      simp
    · rw [List.filter_cons_of_neg hm]
      exact ih htail

theorem sum_map_length_one {α : Type} (l : List α) (f : α → Nat)
    (h : ∀ a ∈ l, f a = 1) : (l.map f).sum = l.length := by
  induction l with
  | nil => rfl
  | cons a t ih =>
    simp only [List.map_cons, List.sum_cons, List.length_cons,
      h a (List.mem_cons_self a t)]
    rw [ih (fun b hb => h b (List.mem_cons_of_mem a hb))]
    omega

theorem leftMerge_length (l r : DF) (key : String)
    (hu : uniqKey key r.rows = true) :
    (leftMerge l r key).rows.length = l.rows.length := by
  unfold leftMerge
  rw [List.length_flatMap]
  apply sum_map_length_one
  intro lr _
  simp only [Function.comp_apply]
  by_cases he : (r.rows.filter (keyMatches key lr)).isEmpty = true
  · simp [he]
  · rw [if_neg he, List.length_map]
    have hle := filter_keyMatches_le_one key lr r.rows hu
    have hne : r.rows.filter (keyMatches key lr) ≠ [] := by
      simpa [List.isEmpty_iff] using he
    have hpos : 0 < (r.rows.filter (keyMatches key lr)).length :=
      List.length_pos.mpr hne
    omega

theorem leftMerge_anchor (l r : DF) (key : String) (lr : Row)
    (h : lr ∈ l.rows) :
    ∃ out ∈ (leftMerge l r key).rows, RowExtends lr out := by
  unfold leftMerge
  by_cases he : (r.rows.filter (keyMatches key lr)).isEmpty = true
  · refine ⟨lr, ?_, rowExtends_refl lr⟩
    rw [List.mem_flatMap]
    exact ⟨lr, h, by simp [he]⟩
  · have hne : r.rows.filter (keyMatches key lr) ≠ [] := by
      simpa [List.isEmpty_iff] using he
    obtain ⟨m, hm⟩ := List.exists_mem_of_ne_nil _ hne
    refine ⟨lr ++ m.dropCol key, ?_, rowExtends_append _ _⟩
    rw [List.mem_flatMap]
    refine ⟨lr, h, ?_⟩
    rw [if_neg he]
    exact List.mem_map_of_mem _ hm

theorem leftMerge_rows_extend_anchor (l r : DF) (key : String) :
    ∀ out ∈ (leftMerge l r key).rows, ∃ lr ∈ l.rows, RowExtends lr out := by
  intro out hout
  unfold leftMerge at hout
  rw [List.mem_flatMap] at hout
  obtain ⟨lr, hlr, hmem⟩ := hout
  by_cases he : (r.rows.filter (keyMatches key lr)).isEmpty = true
  · rw [if_pos he] at hmem
    simp only [List.mem_singleton] at hmem
    exact ⟨lr, hlr, by rw [hmem]; exact rowExtends_refl lr⟩
  · rw [if_neg he] at hmem
    obtain ⟨m, _, rfl⟩ := List.mem_map.mp hmem
    exact ⟨lr, hlr, rowExtends_append _ _⟩

theorem leftMerge_unmatched (l r : DF) (key : String) (lr : Row)
    (h : lr ∈ l.rows) (hnm : ∀ rr ∈ r.rows, keyMatches key lr rr = false) :
    lr ∈ (leftMerge l r key).rows := by
  unfold leftMerge
  rw [List.mem_flatMap]
  refine ⟨lr, h, ?_⟩
  have hfil : r.rows.filter (keyMatches key lr) = [] :=
    List.filter_eq_nil_iff.mpr (fun a ha => by rw [hnm a ha]; simp)
  simp [hfil]

/-- C9: the merge sequence is anchored on the housing table with
left-join semantics.  Provided each joined source has at most one row per
join key: the merged table has exactly one row per anchor county (no
anchor row dropped or duplicated), every anchor row is preserved into a
row extending it, every row surviving the home-value filter extends an
anchor row and has a present home value; and an anchor row with no match
in a joined source is kept unchanged (the joined fields stay missing). -/
theorem merged_left_join_one_row_per_county
    (housing elec gun pop exotic mj : DF)
    (l r : DF) (key : String) (lr : Row)
    (hu1 : UniqueKey (elec.proj elecKeepCols) "county_fips")
    (hu2 : UniqueKey (gun.proj gunKeepCols) "state_code")
    (hu3 : UniqueKey (pop.proj popKeepCols) "county_fips")
    (hu4 : UniqueKey (exotic.proj exoticKeepCols) "state_code")
    (hu5 : UniqueKey (mj.proj mjKeepCols) "state_code")
    (hlr : lr ∈ l.rows)
    (hnm : ∀ rr ∈ r.rows, keyMatches key lr rr = false) :
    (mergeAll housing elec gun pop (some exotic) (some mj)).rows.length =
      housing.rows.length ∧
    (∀ hrow ∈ housing.rows,
      ∃ out ∈ (mergeAll housing elec gun pop (some exotic) (some mj)).rows,
        RowExtends hrow out) ∧
    (∀ out ∈ (dropnaHome
        (mergeAll housing elec gun pop (some exotic) (some mj))).rows,
      (∃ hrow ∈ housing.rows, RowExtends hrow out) ∧
      (Row.cell out "median_home_value_all").isSome = true) ∧
    lr ∈ (leftMerge l r key).rows := by
  have hM : mergeAll housing elec gun pop (some exotic) (some mj) =
      leftMerge
        (leftMerge
          (leftMerge
            (leftMerge
              (leftMerge housing (elec.proj elecKeepCols) "county_fips")
              (gun.proj gunKeepCols) "state_code")
            (pop.proj popKeepCols) "county_fips")
          (exotic.proj exoticKeepCols) "state_code")
        (mj.proj mjKeepCols) "state_code" := rfl
  refine ⟨?_, ?_, ?_, leftMerge_unmatched l r key lr hlr hnm⟩
  · rw [hM, leftMerge_length _ _ _ hu5, leftMerge_length _ _ _ hu4,
      leftMerge_length _ _ _ hu3, leftMerge_length _ _ _ hu2,
      leftMerge_length _ _ _ hu1]
  · intro hrow hhr
    obtain ⟨o1, ho1, he1⟩ := leftMerge_anchor housing (elec.proj elecKeepCols)
      "county_fips" hrow hhr
    obtain ⟨o2, ho2, he2⟩ := leftMerge_anchor _ (gun.proj gunKeepCols)
      "state_code" o1 ho1
    obtain ⟨o3, ho3, he3⟩ := leftMerge_anchor _ (pop.proj popKeepCols)
      "county_fips" o2 ho2
    obtain ⟨o4, ho4, he4⟩ := leftMerge_anchor _ (exotic.proj exoticKeepCols)
      "state_code" o3 ho3
    obtain ⟨o5, ho5, he5⟩ := leftMerge_anchor _ (mj.proj mjKeepCols)
      "state_code" o4 ho4
    exact ⟨o5, by rw [hM]; exact ho5,
      rowExtends_trans (rowExtends_trans (rowExtends_trans
        (rowExtends_trans he1 he2) he3) he4) he5⟩
  · intro out hout
    have hmem := List.mem_filter.mp hout
    refine ⟨?_, hmem.2⟩
    have h5 := hmem.1
    rw [hM] at h5
    obtain ⟨o4, ho4, he5⟩ := leftMerge_rows_extend_anchor _ _ _ out h5
    obtain ⟨o3, ho3, he4⟩ := leftMerge_rows_extend_anchor _ _ _ o4 ho4
    obtain ⟨o2, ho2, he3⟩ := leftMerge_rows_extend_anchor _ _ _ o3 ho3
    obtain ⟨o1, ho1, he2⟩ := leftMerge_rows_extend_anchor _ _ _ o2 ho2
    obtain ⟨h0, hh0, he1⟩ := leftMerge_rows_extend_anchor _ _ _ o1 ho1
    exact ⟨h0, hh0,
      rowExtends_trans (rowExtends_trans (rowExtends_trans
        (rowExtends_trans he1 he2) he3) he4) he5⟩

/-- Concrete one-county housing anchor for the C9 witness. -/
def wHousing : DF :=
  ⟨["county_fips", "state_code", "median_home_value_all"],
   [[("county_fips", Val.str "01001"), ("state_code", Val.str "AL"),
     ("median_home_value_all", Val.num 1)]]⟩

/-- Concrete one-row election table for the C9 witness. -/
def wElec : DF :=
  ⟨["county_fips", "lean_score"],
   [[("county_fips", Val.str "01001"), ("lean_score", Val.num 1)]]⟩

/-- Concrete one-row gun-law table for the C9 witness. -/
def wGun : DF :=
  ⟨["state_code", "gun_law_grade"],
   [[("state_code", Val.str "AL"), ("gun_law_grade", Val.str "F")]]⟩

/-- Concrete empty population table for the C9 witness. -/
def wPop : DF := ⟨["county_fips", "population"], []⟩

/-- Concrete empty table for the C9 witness. -/
def wEmpty : DF := ⟨[], []⟩

/-- Witness for C9 on concrete one-row sources. -/
theorem merged_left_join_one_row_per_county_witness :
    (mergeAll wHousing wElec wGun wPop (some wEmpty) (some wEmpty)).rows.length =
      wHousing.rows.length ∧
    (∀ hrow ∈ wHousing.rows,
      ∃ out ∈ (mergeAll wHousing wElec wGun wPop
          (some wEmpty) (some wEmpty)).rows,
        RowExtends hrow out) ∧
    (∀ out ∈ (dropnaHome (mergeAll wHousing wElec wGun wPop
        (some wEmpty) (some wEmpty))).rows,
      (∃ hrow ∈ wHousing.rows, RowExtends hrow out) ∧
      (Row.cell out "median_home_value_all").isSome = true) ∧
    [("county_fips", Val.str "01001"), ("state_code", Val.str "AL"),
     ("median_home_value_all", Val.num 1)] ∈
      (leftMerge wHousing wEmpty "county_fips").rows :=
  merged_left_join_one_row_per_county wHousing wElec wGun wPop wEmpty wEmpty
    wHousing wEmpty "county_fips"
    [("county_fips", Val.str "01001"), ("state_code", Val.str "AL"),
     ("median_home_value_all", Val.num 1)]
    (by decide) (by decide) (by decide) (by decide) (by decide)
    (by decide) (by decide)

end HousingPrep

